import Mathlib

/-!
Verification of the buffered bulk-write engine and ingestion pipeline of
mongo-tools (package db, `BufferedBulkInserter`, and package mongoimport).

The embedding is shallow: documents are an abstract type `α`; the external
database client (bson.Marshal and `BulkInserter.Run`) is an oracle `DBEnv`
mapping a document to its serialized length (or an encoding error) and a
batch to a write outcome.  Every call of `BulkInserter.Run` is logged in a
`writes` list, so "network writes" are observable.
-/

namespace MongoTools

/-- `MaxBulkSize` from package db: the byte ceiling on a bulk write. -/
def MaxBulkSize : Nat := 16790000

/-- `BulkDocLimit` from package db: the hard record-count ceiling on a bulk write. -/
def BulkDocLimit : Nat := 1000

/-- Oracle for the external collaborators of the batch builder:
`marshalLen d` is the byte length of `bson.Marshal d` (or its encoding error),
and `run b` is the outcome reported by `BulkInserter.Run` for batch `b`. -/
structure DBEnv (α : Type) where
  marshalLen : α → Except String Nat
  run : List α → Option String

/-- State of `db.BufferedBulkInserter`: the documents currently held by the
underlying `BulkInserter` (since its last `Reset`), plus the fields of the
Go struct.  `collection` is omitted (opaque handle used only by the oracle). -/
structure BufferedBulkInserter (α : Type) where
  bulkDocs : List α
  continueOnError : Bool
  docLimit : Nat
  byteCount : Nat
  docCount : Nat
deriving DecidableEq

/-- Result of one builder operation: the returned `error`, the new builder
state, and the `Run` calls issued during the operation (each entry is the
batch handed to `BulkInserter.Run`, in order). -/
structure StepResult (α : Type) where
  err : Option String
  bb : BufferedBulkInserter α
  writes : List (List α)
deriving DecidableEq

/-- `NewBufferedBulkInserter`: fresh builder; the underlying bulk is `Reset`,
so it holds no documents, and both counters start at zero. -/
def NewBufferedBulkInserter (α : Type) (docLimit : Nat) (continueOnError : Bool) :
    BufferedBulkInserter α :=
  ⟨[], continueOnError, docLimit, 0, 0⟩

/-- `BufferedBulkInserter.Flush` from part_000: if `docCount == 0` return nil
without touching the network; otherwise call `bulk.Run()` and (via `defer
bb.bulk.Reset()`) clear the underlying bulk's documents regardless of the
outcome.  Note the Go method resets only the underlying bulk: `docCount`
and `byteCount` are left unchanged (`resetBulk`, which would zero them, is
never invoked). -/
def Flush (env : DBEnv α) (bb : BufferedBulkInserter α) : StepResult α :=
  if bb.docCount = 0 then
    ⟨none, bb, []⟩
  else
    ⟨env.run bb.bulkDocs, { bb with bulkDocs := [] }, [bb.bulkDocs]⟩

/-- `BufferedBulkInserter.Insert` from part_000: marshal the document (an
encoding error is returned with the state untouched); if
`docCount ≥ docLimit || byteCount+len(rawBytes) > MaxBulkSize ||
docCount ≥ BulkDocLimit` then flush, capturing the flush error; then
unconditionally buffer the document, bump both counters, and return the
captured error. -/
def Insert (env : DBEnv α) (bb : BufferedBulkInserter α) (doc : α) : StepResult α :=
  match env.marshalLen doc with
  | .error e => ⟨some ("bson encoding error: " ++ e), bb, []⟩
  | .ok len =>
    let fr : StepResult α :=
      if bb.docLimit ≤ bb.docCount ∨ MaxBulkSize < bb.byteCount + len ∨
          BulkDocLimit ≤ bb.docCount then
        Flush env bb
      else
        ⟨none, bb, []⟩
    ⟨fr.err,
      { fr.bb with
          bulkDocs := fr.bb.bulkDocs ++ [doc],
          docCount := fr.bb.docCount + 1,
          byteCount := fr.bb.byteCount + len },
      fr.writes⟩

/-- One observable event at the `select` of `runInsertionWorker`'s read loop:
a document arrives on `readDocs`, the channel is closed (`alive == false`),
or `imp.Dying()` fires (the tomb's cancellation was tripped). -/
inductive WorkerEvent (α : Type) where
  | record (doc : α)
  | closed
  | dying
deriving DecidableEq

/-- Modelled from the spec: `filterIngestError` (mongoimport's error
classifier, not under src/) keeps a per-record write error fatal exactly
when stop-on-error is set or the error is connection-level; otherwise the
error is logged and swallowed (`nil`). -/
def filterIngestError (stopOnError : Bool) (isConnErr : String → Bool) :
    Option String → Option String
  | none => none
  | some e => if stopOnError || isConnErr e then some e else none

/-- Observable outcome of a worker: its returned `error`, the number of
`insertionCount` increments it performed, the batches it handed to
`BulkInserter.Run` (in order), and its final builder state. -/
structure WorkerResult (α : Type) where
  err : Option String
  okCount : Nat
  writes : List (List α)
  bb : BufferedBulkInserter α
deriving DecidableEq

/-- `mongoimport.runInsertionWorker` (non-upsert path), driven by the trace
of its `select` outcomes: on a record, `Insert` it, classify the error with
`filterIngestError`, return it if fatal, else bump the success counter; on
channel closure, leave the loop and return the classified result of the
final `Flush`; on `Dying`, return `nil` immediately (no final flush).  An
exhausted trace models a worker still blocked in `select`: nothing further
is observable. -/
def runInsertionWorker (env : DBEnv α) (stopOnError : Bool) (isConnErr : String → Bool) :
    List (WorkerEvent α) → BufferedBulkInserter α → WorkerResult α
  | [], bb => ⟨none, 0, [], bb⟩
  | .dying :: _, bb => ⟨none, 0, [], bb⟩
  | .closed :: _, bb =>
    let fr := Flush env bb
    ⟨filterIngestError stopOnError isConnErr fr.err, 0, fr.writes, fr.bb⟩
  | .record doc :: rest, bb =>
    let ir := Insert env bb doc
    match filterIngestError stopOnError isConnErr ir.err with
    | some e => ⟨some e, 0, ir.writes, ir.bb⟩
    | none =>
      let r := runInsertionWorker env stopOnError isConnErr rest ir.bb
      ⟨r.err, r.okCount + 1, ir.writes ++ r.writes, r.bb⟩

/-- The read loop restricted to record deliveries only: the portion of
`runInsertionWorker` before end-of-input or cancellation is observed.  Used
to state what a cancelled worker has and has not done. -/
def insertPhase (env : DBEnv α) (stopOnError : Bool) (isConnErr : String → Bool) :
    List α → BufferedBulkInserter α → WorkerResult α
  | [], bb => ⟨none, 0, [], bb⟩
  | doc :: docs, bb =>
    let ir := Insert env bb doc
    match filterIngestError stopOnError isConnErr ir.err with
    | some e => ⟨some e, 0, ir.writes, ir.bb⟩
    | none =>
      let r := insertPhase env stopOnError isConnErr docs ir.bb
      ⟨r.err, r.okCount + 1, ir.writes ++ r.writes, r.bb⟩

/-- Accepting a sequence of records through `Insert` alone (the raw Batch
Builder contract, no error filtering): final state and the `Run` calls made. -/
def insertSeq (env : DBEnv α) (bb : BufferedBulkInserter α) :
    List α → BufferedBulkInserter α × List (List α)
  | [] => (bb, [])
  | doc :: docs =>
    let ir := Insert env bb doc
    let r := insertSeq env ir.bb docs
    (r.1, ir.writes ++ r.2)

/-- All batches handed to `BulkInserter.Run` when a sequence of records is
accepted and the builder is then drained by a final `Flush`. -/
def importWrites (env : DBEnv α) (bb : BufferedBulkInserter α) (docs : List α) :
    List (List α) :=
  let r := insertSeq env bb docs
  r.2 ++ (Flush env r.1).writes

/-- Serialized byte size of a batch, as the oracle measures each document
(an unmarshallable document contributes 0; such documents are never
buffered). -/
def batchBytes (env : DBEnv α) (w : List α) : Nat :=
  (w.map (fun d => match env.marshalLen d with | .ok n => n | .error _ => 0)).sum

theorem Flush_err (env : DBEnv α) (bb : BufferedBulkInserter α) :
    (Flush env bb).err = if bb.docCount = 0 then none else env.run bb.bulkDocs := by
  unfold Flush; split <;> rfl

theorem Flush_docCount (env : DBEnv α) (bb : BufferedBulkInserter α) :
    (Flush env bb).bb.docCount = bb.docCount := by
  unfold Flush; split <;> rfl

theorem Flush_byteCount (env : DBEnv α) (bb : BufferedBulkInserter α) :
    (Flush env bb).bb.byteCount = bb.byteCount := by
  unfold Flush; split <;> rfl

theorem Flush_docLimit (env : DBEnv α) (bb : BufferedBulkInserter α) :
    (Flush env bb).bb.docLimit = bb.docLimit := by
  unfold Flush; split <;> rfl

theorem Insert_docLimit (env : DBEnv α) (bb : BufferedBulkInserter α) (doc : α) :
    (Insert env bb doc).bb.docLimit = bb.docLimit := by
  unfold Insert
  cases h : env.marshalLen doc with
  | error e => rfl
  | ok len =>
    simp only
    split
    · exact Flush_docLimit env bb
    · rfl

/-- Oracle where every document marshals to 10 bytes and every write succeeds. -/
def envOk : DBEnv Nat := ⟨fun _ => .ok 10, fun _ => none⟩

/-- Oracle where every document marshals to 10 bytes and every write fails. -/
def envFail : DBEnv Nat := ⟨fun _ => .ok 10, fun _ => some "duplicate key error"⟩

/-- C3: For every Batch Builder state and every record that serializes to
`len` bytes, `Insert` flushes the current batch first (capturing the flush
outcome and its `Run` call) exactly when `docCount ≥ docLimit` or
`byteCount + len > MaxBulkSize` or `docCount ≥ BulkDocLimit`; it then
unconditionally appends the record and bumps both counters, and returns the
captured flush error — a flush failure surfaces on the accepting call that
triggered it. -/
theorem c3_accept_contract (env : DBEnv α) (bb : BufferedBulkInserter α) (doc : α)
    (len : Nat) (h : env.marshalLen doc = .ok len) :
    (Insert env bb doc).err =
      (if bb.docLimit ≤ bb.docCount ∨ MaxBulkSize < bb.byteCount + len ∨
          BulkDocLimit ≤ bb.docCount then (Flush env bb).err else none) ∧
    (Insert env bb doc).writes =
      (if bb.docLimit ≤ bb.docCount ∨ MaxBulkSize < bb.byteCount + len ∨
          BulkDocLimit ≤ bb.docCount then (Flush env bb).writes else []) ∧
    (Insert env bb doc).bb.bulkDocs =
      (if bb.docLimit ≤ bb.docCount ∨ MaxBulkSize < bb.byteCount + len ∨
          BulkDocLimit ≤ bb.docCount then (Flush env bb).bb.bulkDocs else bb.bulkDocs)
        ++ [doc] ∧
    (Insert env bb doc).bb.docCount = bb.docCount + 1 ∧
    (Insert env bb doc).bb.byteCount = bb.byteCount + len := by
  by_cases hc : bb.docLimit ≤ bb.docCount ∨ MaxBulkSize < bb.byteCount + len ∨
      BulkDocLimit ≤ bb.docCount
  · simp [Insert, h, if_pos hc, Flush_docCount, Flush_byteCount]
  · simp [Insert, h, if_neg hc]

/-- A full builder: doc limit 2 reached, two documents of 10 bytes buffered. -/
def bbAtLimit : BufferedBulkInserter Nat := ⟨[5, 6], true, 2, 20, 2⟩

/-- Witness for C3 at a concrete input: the full builder `bbAtLimit` (with a
failing store) accepting one more record flushes the old batch, surfaces
the flush failure on this call, and still buffers the new record. -/
theorem c3_accept_contract_witness :
    (Insert envFail bbAtLimit 42).err = some "duplicate key error" ∧
    (Insert envFail bbAtLimit 42).writes = [[5, 6]] ∧
    (Insert envFail bbAtLimit 42).bb.bulkDocs = [42] ∧
    (Insert envFail bbAtLimit 42).bb.docCount = 3 ∧
    (Insert envFail bbAtLimit 42).bb.byteCount = 30 := by
  obtain ⟨h1, h2, h3, h4, h5⟩ := c3_accept_contract envFail bbAtLimit 42 10 rfl
  rw [h1, h2, h3, h4, h5]
  decide

/-- C10: when BSON serialization of the document fails, `Insert` returns the
wrapped encoding error and is otherwise a no-op: no flush is issued
(`writes = []`), the document is not buffered, and the whole builder state —
record count and byte count included — is exactly the previous state. -/
theorem c10_encoding_error_pure (env : DBEnv α) (bb : BufferedBulkInserter α)
    (doc : α) (e : String) (h : env.marshalLen doc = .error e) :
    Insert env bb doc = ⟨some ("bson encoding error: " ++ e), bb, []⟩ := by
  simp [Insert, h]

/-- Oracle whose documents all fail BSON encoding. -/
def envBadDoc : DBEnv Nat := ⟨fun _ => .error "unsupported type", fun _ => none⟩

/-- Witness for C10: a concrete unmarshallable document leaves a part-full
builder untouched and returns the encoding error. -/
theorem c10_encoding_error_pure_witness :
    Insert envBadDoc ⟨[5, 6], true, 1000, 20, 2⟩ 9 =
      ⟨some ("bson encoding error: " ++ "unsupported type"), ⟨[5, 6], true, 1000, 20, 2⟩, []⟩ :=
  c10_encoding_error_pure envBadDoc ⟨[5, 6], true, 1000, 20, 2⟩ 9 "unsupported type" rfl

/-- The observable effect of calling `Flush` twice in succession after one
record was accepted: the very scenario of C4's idempotence claim. -/
def doubleDrain : StepResult Nat × StepResult Nat :=
  let bb1 := (Insert envOk (NewBufferedBulkInserter Nat 1000 true) 7).bb
  let d1 := Flush envOk bb1
  (d1, Flush envOk d1.bb)

/-- C4 (refuting the idempotence half): after accepting one record, the first
`Flush` writes the batch `[7]` and succeeds, but the *second* `Flush` is not
a no-op: because `docCount` was never reset it calls `BulkInserter.Run`
again, issuing a second network write (of the now-empty bulk).  `Flush` on a
never-used builder, by contrast, is a genuine no-op. -/
theorem c4_second_drain_writes_again :
    (doubleDrain.1.err = none ∧ doubleDrain.1.writes = [[7]]) ∧
    (doubleDrain.2.writes = [[]] ∧ doubleDrain.2.bb.docCount = 1) ∧
    Flush envOk (NewBufferedBulkInserter Nat 1000 true) =
      ⟨none, NewBufferedBulkInserter Nat 1000 true, []⟩ := by
  decide

/-- C5 (refuting): flushing a builder holding one 10-byte record clears the
buffered documents but leaves `docCount = 1` and `byteCount = 10` — the
counters do not return to zero, whether the write succeeds or fails
(`resetBulk`, which would zero them, is dead code). -/
theorem c5_flush_keeps_counters :
    (let st := Flush envOk (Insert envOk (NewBufferedBulkInserter Nat 1000 true) 3).bb
     st.err = none ∧ st.bb.bulkDocs = [] ∧ st.bb.docCount = 1 ∧ st.bb.byteCount = 10) ∧
    (let st := Flush envFail (Insert envFail (NewBufferedBulkInserter Nat 1000 true) 3).bb
     st.err = some "duplicate key error" ∧ st.bb.bulkDocs = [] ∧
       st.bb.docCount = 1 ∧ st.bb.byteCount = 10) := by
  decide

/-- Oracle whose documents each serialize to one byte more than the ceiling. -/
def envHuge : DBEnv Nat := ⟨fun _ => .ok (MaxBulkSize + 1), fun _ => none⟩

/-- C2 (refuting the byte half as universally stated): a run consisting of a
single record whose serialization exceeds the byte ceiling still buffers the
record (the triggered pre-flush finds an empty batch), and the final drain
hands the store a batch of 16790001 bytes — a flushed batch above the byte
ceiling. -/
theorem c2_counterexample :
    importWrites envHuge (NewBufferedBulkInserter Nat 1000 true) [0] = [[0]] ∧
    MaxBulkSize < batchBytes envHuge [0] := by
  decide

theorem batchBytes_nil (env : DBEnv α) : batchBytes env [] = 0 := rfl

theorem batchBytes_append_single (env : DBEnv α) (xs : List α) (d : α) (len : Nat)
    (h : env.marshalLen d = .ok len) :
    batchBytes env (xs ++ [d]) = batchBytes env xs + len := by
  simp [batchBytes, h]

theorem batchBytes_single (env : DBEnv α) (d : α) (len : Nat)
    (h : env.marshalLen d = .ok len) :
    batchBytes env [d] = len := by
  simp [batchBytes, h]

/-- The reachable-state invariant of the batch builder: the two counters
dominate the length and byte size of the actually-buffered batch, and the
buffered batch itself respects both wire ceilings. -/
def GoodState (env : DBEnv α) (bb : BufferedBulkInserter α) : Prop :=
  bb.bulkDocs.length ≤ bb.docCount ∧
  batchBytes env bb.bulkDocs ≤ bb.byteCount ∧
  bb.bulkDocs.length ≤ min bb.docLimit BulkDocLimit ∧
  batchBytes env bb.bulkDocs ≤ MaxBulkSize

theorem goodState_new (env : DBEnv α) (docLimit : Nat) (c : Bool) :
    GoodState env (NewBufferedBulkInserter α docLimit c) := by
  refine ⟨Nat.le_refl 0, Nat.le_refl 0, ?_, ?_⟩ <;> simp [NewBufferedBulkInserter, batchBytes]

theorem flush_writes_eq (env : DBEnv α) (bb : BufferedBulkInserter α) :
    ∀ w ∈ (Flush env bb).writes, w = bb.bulkDocs := by
  unfold Flush
  split
  · intro w hw; cases hw
  · intro w hw
    simp only [List.mem_singleton] at hw
    exact hw

/-- One `Insert` preserves the invariant (if the record itself fits under the
byte ceiling and the configured limit is at least 1), and every batch it
flushes respects both ceilings. -/
theorem insert_good (env : DBEnv α) (bb : BufferedBulkInserter α) (doc : α)
    (hdl : 1 ≤ bb.docLimit)
    (hsz : ∀ len, env.marshalLen doc = .ok len → len ≤ MaxBulkSize)
    (hg : GoodState env bb) :
    GoodState env (Insert env bb doc).bb ∧
      ∀ w ∈ (Insert env bb doc).writes,
        w.length ≤ min bb.docLimit BulkDocLimit ∧ batchBytes env w ≤ MaxBulkSize := by
  obtain ⟨hg1, hg2, hg3, hg4⟩ := hg
  cases hm : env.marshalLen doc with
  | error e =>
    simp only [Insert, hm]
    exact ⟨⟨hg1, hg2, hg3, hg4⟩, by intro w hw; cases hw⟩
  | ok len =>
    have hlen : len ≤ MaxBulkSize := hsz len hm
    simp only [Insert, hm]
    split
    · -- a ceiling binds: the old batch is flushed, then the record is buffered
      unfold Flush
      split
      · -- docCount = 0 forces bulkDocs = [] by the invariant; the flush is a no-op
        rename_i hzero
        have hnil : bb.bulkDocs = [] := by
          rw [hzero] at hg1
          exact List.eq_nil_of_length_eq_zero (Nat.le_zero.mp hg1)
        constructor
        · refine ⟨?_, ?_, ?_, ?_⟩
          · simp [hnil]
          · simp only [hnil, List.nil_append, batchBytes_single env doc len hm]
            exact Nat.le_add_left len bb.byteCount
          · simp only [hnil, List.nil_append, List.length_singleton]
            exact Nat.le_min.mpr ⟨hdl, by decide⟩
          · simp only [hnil, List.nil_append, batchBytes_single env doc len hm]
            exact hlen
        · intro w hw; cases hw
      · constructor
        · refine ⟨?_, ?_, ?_, ?_⟩
          · simp
          · simp only [List.nil_append, batchBytes_single env doc len hm]
            exact Nat.le_add_left len bb.byteCount
          · simp only [List.nil_append, List.length_singleton]
            exact Nat.le_min.mpr ⟨hdl, by decide⟩
          · simp only [List.nil_append, batchBytes_single env doc len hm]
            exact hlen
        · intro w hw
          simp only [List.mem_singleton] at hw
          subst hw
          exact ⟨hg3, hg4⟩
    · -- no ceiling binds: the record joins the current batch
      rename_i hcond
      push_neg at hcond
      obtain ⟨hc1, hc2, hc3⟩ := hcond
      constructor
      · refine ⟨?_, ?_, ?_, ?_⟩
        · simpa using Nat.add_le_add_right hg1 1
        · rw [batchBytes_append_single env bb.bulkDocs doc len hm]
          exact Nat.add_le_add_right hg2 len
        · have h1 : bb.bulkDocs.length + 1 ≤ bb.docCount + 1 := Nat.add_le_add_right hg1 1
          have h2 : bb.docCount + 1 ≤ bb.docLimit := hc1
          have h3 : bb.docCount + 1 ≤ BulkDocLimit := hc3
          simp only [List.length_append, List.length_singleton]
          exact Nat.le_min.mpr ⟨Nat.le_trans h1 h2, Nat.le_trans h1 h3⟩
        · rw [batchBytes_append_single env bb.bulkDocs doc len hm]
          exact Nat.le_trans (Nat.add_le_add_right hg2 len) hc2
      · intro w hw; cases hw

/-- `insertSeq` keeps the invariant and only flushes in-bound batches. -/
theorem insertSeq_good (env : DBEnv α) (docs : List α) :
    ∀ bb : BufferedBulkInserter α, 1 ≤ bb.docLimit →
      (∀ d ∈ docs, ∀ len, env.marshalLen d = .ok len → len ≤ MaxBulkSize) →
      GoodState env bb →
      GoodState env (insertSeq env bb docs).1 ∧
        (insertSeq env bb docs).1.docLimit = bb.docLimit ∧
        ∀ w ∈ (insertSeq env bb docs).2,
          w.length ≤ min bb.docLimit BulkDocLimit ∧ batchBytes env w ≤ MaxBulkSize := by
  induction docs with
  | nil =>
    intro bb hdl _ hg
    exact ⟨hg, rfl, by intro w hw; cases hw⟩
  | cons d ds ih =>
    intro bb hdl hsz hg
    have hstep := insert_good env bb d hdl (hsz d (List.mem_cons_self d ds)) hg
    have hdl2 : 1 ≤ (Insert env bb d).bb.docLimit := by
      rw [Insert_docLimit]; exact hdl
    have hrec := ih (Insert env bb d).bb hdl2
      (fun x hx => hsz x (List.mem_cons_of_mem d hx)) hstep.1
    refine ⟨hrec.1, ?_, ?_⟩
    · show (insertSeq env (Insert env bb d).bb ds).1.docLimit = bb.docLimit
      rw [hrec.2.1, Insert_docLimit]
    · intro w hw
      show w.length ≤ min bb.docLimit BulkDocLimit ∧ batchBytes env w ≤ MaxBulkSize
      have hw2 : w ∈ (Insert env bb d).writes ++ (insertSeq env (Insert env bb d).bb ds).2 := hw
      rcases List.mem_append.mp hw2 with h | h
      · exact hstep.2 w h
      · have := hrec.2.2 w h
        rwa [Insert_docLimit] at this

/-- The count side of the invariant alone needs no byte assumption: one
`Insert` keeps the doc counter dominating the buffered batch's length, keeps
the batch within `min docLimit 1000` records, and only flushes batches
within that record bound (given `docLimit ≥ 1`). -/
theorem insert_count (env : DBEnv α) (bb : BufferedBulkInserter α) (doc : α)
    (hdl : 1 ≤ bb.docLimit)
    (hc1 : bb.bulkDocs.length ≤ bb.docCount)
    (hc2 : bb.bulkDocs.length ≤ min bb.docLimit BulkDocLimit) :
    ((Insert env bb doc).bb.bulkDocs.length ≤ (Insert env bb doc).bb.docCount ∧
      (Insert env bb doc).bb.bulkDocs.length ≤ min bb.docLimit BulkDocLimit) ∧
    ∀ w ∈ (Insert env bb doc).writes, w.length ≤ min bb.docLimit BulkDocLimit := by
  cases hm : env.marshalLen doc with
  | error e =>
    simp only [Insert, hm]
    exact ⟨⟨hc1, hc2⟩, by intro w hw; cases hw⟩
  | ok len =>
    simp only [Insert, hm]
    split
    · -- a ceiling binds: the old batch is flushed, then the record is buffered
      unfold Flush
      split
      · rename_i hzero
        have hnil : bb.bulkDocs = [] := by
          rw [hzero] at hc1
          exact List.eq_nil_of_length_eq_zero (Nat.le_zero.mp hc1)
        constructor
        · constructor
          · simp [hnil]
          · simp only [hnil, List.nil_append, List.length_singleton]
            exact Nat.le_min.mpr ⟨hdl, by decide⟩
        · intro w hw; cases hw
      · constructor
        · constructor
          · simp
          · simp only [List.nil_append, List.length_singleton]
            exact Nat.le_min.mpr ⟨hdl, by decide⟩
        · intro w hw
          simp only [List.mem_singleton] at hw
          subst hw
          exact hc2
    · -- no ceiling binds: the record joins the current batch
      rename_i hcond
      push_neg at hcond
      obtain ⟨hcnd1, _, hcnd3⟩ := hcond
      constructor
      · constructor
        · simpa using Nat.add_le_add_right hc1 1
        · have h1 : bb.bulkDocs.length + 1 ≤ bb.docCount + 1 := Nat.add_le_add_right hc1 1
          simp only [List.length_append, List.length_singleton]
          exact Nat.le_min.mpr ⟨Nat.le_trans h1 hcnd1, Nat.le_trans h1 hcnd3⟩
      · intro w hw; cases hw

/-- `insertSeq` keeps the count invariant and only flushes batches within the
record ceiling, with no assumption on record sizes. -/
theorem insertSeq_count (env : DBEnv α) (docs : List α) :
    ∀ bb : BufferedBulkInserter α, 1 ≤ bb.docLimit →
      bb.bulkDocs.length ≤ bb.docCount →
      bb.bulkDocs.length ≤ min bb.docLimit BulkDocLimit →
      ((insertSeq env bb docs).1.bulkDocs.length ≤ (insertSeq env bb docs).1.docCount ∧
        (insertSeq env bb docs).1.bulkDocs.length ≤ min bb.docLimit BulkDocLimit) ∧
      (insertSeq env bb docs).1.docLimit = bb.docLimit ∧
      ∀ w ∈ (insertSeq env bb docs).2, w.length ≤ min bb.docLimit BulkDocLimit := by
  induction docs with
  | nil =>
    intro bb hdl hc1 hc2
    exact ⟨⟨hc1, hc2⟩, rfl, by intro w hw; cases hw⟩
  | cons d ds ih =>
    intro bb hdl hc1 hc2
    have hstep := insert_count env bb d hdl hc1 hc2
    have hdl2 : 1 ≤ (Insert env bb d).bb.docLimit := by
      rw [Insert_docLimit]; exact hdl
    have hmin : min (Insert env bb d).bb.docLimit BulkDocLimit =
        min bb.docLimit BulkDocLimit := by
      rw [Insert_docLimit]
    have hrec := ih (Insert env bb d).bb hdl2 hstep.1.1 (by rw [hmin]; exact hstep.1.2)
    refine ⟨⟨hrec.1.1, ?_⟩, ?_, ?_⟩
    · show (insertSeq env (Insert env bb d).bb ds).1.bulkDocs.length ≤
        min bb.docLimit BulkDocLimit
      have h := hrec.1.2
      rwa [hmin] at h
    · show (insertSeq env (Insert env bb d).bb ds).1.docLimit = bb.docLimit
      rw [hrec.2.1, Insert_docLimit]
    · intro w hw
      show w.length ≤ min bb.docLimit BulkDocLimit
      have hw2 : w ∈ (Insert env bb d).writes ++
          (insertSeq env (Insert env bb d).bb ds).2 := hw
      rcases List.mem_append.mp hw2 with h | h
      · exact hstep.2 w h
      · have h2 := hrec.2.2 w h
        rwa [hmin] at h2

/-- C2 (amended): starting from a fresh builder with `docLimit ≥ 1`, every
flushed batch — including the final drain — holds at most
`min docLimit 1000` records, unconditionally; and if additionally every
record's serialized size is at most the byte ceiling, every flushed batch is
also at most 16790000 bytes. -/
theorem c2_batch_ceilings_amended (env : DBEnv α) (docLimit : Nat) (c : Bool)
    (docs : List α) (hdl : 1 ≤ docLimit) :
    (∀ w ∈ importWrites env (NewBufferedBulkInserter α docLimit c) docs,
      w.length ≤ min docLimit BulkDocLimit) ∧
    ((∀ d ∈ docs, ∀ len, env.marshalLen d = .ok len → len ≤ MaxBulkSize) →
      ∀ w ∈ importWrites env (NewBufferedBulkInserter α docLimit c) docs,
        batchBytes env w ≤ MaxBulkSize) := by
  constructor
  · have hseq := insertSeq_count env docs (NewBufferedBulkInserter α docLimit c)
      hdl (by simp [NewBufferedBulkInserter]) (by simp [NewBufferedBulkInserter])
    intro w hw
    have hw2 : w ∈ (insertSeq env (NewBufferedBulkInserter α docLimit c) docs).2 ++
        (Flush env (insertSeq env (NewBufferedBulkInserter α docLimit c) docs).1).writes := hw
    rcases List.mem_append.mp hw2 with h | h
    · exact hseq.2.2 w h
    · have hwe := flush_writes_eq env _ w h
      subst hwe
      exact hseq.1.2
  · intro hsz
    have hseq := insertSeq_good env docs (NewBufferedBulkInserter α docLimit c)
      hdl hsz (goodState_new env docLimit c)
    intro w hw
    have hw2 : w ∈ (insertSeq env (NewBufferedBulkInserter α docLimit c) docs).2 ++
        (Flush env (insertSeq env (NewBufferedBulkInserter α docLimit c) docs).1).writes := hw
    rcases List.mem_append.mp hw2 with h | h
    · exact (hseq.2.2 w h).2
    · have hwe := flush_writes_eq env _ w h
      subst hwe
      exact hseq.1.2.2.2

/-- Witness for the amended C2: with doc limit 2 and three 10-byte records,
the first flushed batch `[1, 2]` is within both ceilings. -/
theorem c2_batch_ceilings_witness :
    ([1, 2] : List Nat).length ≤ min 2 BulkDocLimit ∧
      batchBytes envOk [1, 2] ≤ MaxBulkSize :=
  ⟨(c2_batch_ceilings_amended envOk 2 true [1, 2, 3] (by decide)).1 [1, 2] (by decide),
    (c2_batch_ceilings_amended envOk 2 true [1, 2, 3] (by decide)).2
      (by
        intro d _ len h
        simp only [envOk] at h
        cases h
        decide)
      [1, 2] (by decide)⟩

/-- C8: a worker that observes cancellation transitions directly to done:
for any run whose read loop handles the records `pre` without a fatal
(filtered) error and then observes `Dying`, the whole outcome — returned
error `nil`, success count, batches written, final builder state — equals
that of the insert phase alone.  No final `Flush` is issued, the records
still buffered in `bb.bulkDocs` are never handed to the store, and any
events after the cancellation (`rest`) are never processed. -/
theorem c8_cancellation_fast_abort (env : DBEnv α) (stopOnError : Bool)
    (isConnErr : String → Bool) (pre : List α) (rest : List (WorkerEvent α))
    (bb : BufferedBulkInserter α)
    (h : (insertPhase env stopOnError isConnErr pre bb).err = none) :
    runInsertionWorker env stopOnError isConnErr
        (pre.map WorkerEvent.record ++ WorkerEvent.dying :: rest) bb =
      insertPhase env stopOnError isConnErr pre bb := by
  induction pre generalizing bb with
  | nil => rfl
  | cons d ds ih =>
    simp only [List.map_cons, List.cons_append, runInsertionWorker, insertPhase] at h ⊢
    cases hf : filterIngestError stopOnError isConnErr (Insert env bb d).err with
    | some e =>
      rw [hf] at h
    | none =>
      rw [hf] at h
      have h2 : (insertPhase env stopOnError isConnErr ds (Insert env bb d).bb).err = none := h
      simp only [List.append_eq]
      rw [ih _ h2]

/-- Witness for C8: with doc limit 2, the worker accepts `[1, 2, 3]` (one
flush of `[1, 2]`, record 3 left buffered), then cancellation fires while a
record 9 and the channel closure are still pending: nothing further is
flushed and record 3 is lost. -/
theorem c8_cancellation_fast_abort_witness :
    (insertPhase envOk false (fun _ => false) [1, 2, 3]
        (NewBufferedBulkInserter Nat 2 true)).err = none ∧
    runInsertionWorker envOk false (fun _ => false)
        ([1, 2, 3].map WorkerEvent.record ++
          WorkerEvent.dying :: [WorkerEvent.record 9, WorkerEvent.closed])
        (NewBufferedBulkInserter Nat 2 true) =
      insertPhase envOk false (fun _ => false) [1, 2, 3]
        (NewBufferedBulkInserter Nat 2 true) :=
  ⟨by decide,
    c8_cancellation_fast_abort envOk false (fun _ => false) [1, 2, 3]
      [WorkerEvent.record 9, WorkerEvent.closed]
      (NewBufferedBulkInserter Nat 2 true) (by decide)⟩

/-- The two shared slots of `ingestDocuments`: the mutex-guarded first-error
slot `retErr` and whether `imp.Kill` has been invoked (tripping the tomb). -/
structure IngestState where
  retErr : Option String
  killed : Bool
deriving DecidableEq

/-- One worker finishing, from `ingestDocuments`'s closure: only the first
non-nil error is stored, and it also kills the sibling goroutines. -/
def ingestStep (st : IngestState) (err : Option String) : IngestState :=
  if err ≠ none ∧ st.retErr = none then ⟨err, true⟩ else st

/-- `mongoimport.ingestDocuments`, abstracted over the order in which the
workers finish: fold the first-error slot over the workers' results. -/
def ingestDocuments (errs : List (Option String)) : IngestState :=
  errs.foldl ingestStep ⟨none, false⟩

/-- Modelled from the spec: `channelQuorumError` (common/util, not under
src/) awaits the required number of completion signals and returns the
first non-nil error read, nil if none. -/
def channelQuorumError (msgs : List (Option String)) : Option String :=
  msgs.foldl (fun acc m => if acc = none then m else acc) none

/-- `mongoimport.importDocuments`'s terminal outcome: the success counter and
the first non-nil of the two completion signals (producer, ingest pool) in
arrival order. -/
def importDocuments (insertionCount : Nat) (signals : List (Option String)) :
    Nat × Option String :=
  (insertionCount, channelQuorumError signals)

theorem ingestFold_retains (st : IngestState) (l : List (Option String))
    (h : st.retErr ≠ none) : l.foldl ingestStep st = st := by
  induction l with
  | nil => rfl
  | cons x xs ih =>
    rw [List.foldl_cons]
    have hx : ingestStep st x = st := by
      unfold ingestStep
      split
      · rename_i hc
        exact absurd hc.2 h
      · rfl
    rw [hx, ih]

theorem ingestFold_none (pre : List (Option String)) (h : ∀ x ∈ pre, x = none) :
    pre.foldl ingestStep ⟨none, false⟩ = ⟨none, false⟩ := by
  induction pre with
  | nil => rfl
  | cons x xs ih =>
    rw [List.foldl_cons]
    have hx : x = none := h x (List.mem_cons_self x xs)
    rw [hx]
    show xs.foldl ingestStep (ingestStep ⟨none, false⟩ none) = _
    have : ingestStep ⟨none, false⟩ none = ⟨none, false⟩ := by
      unfold ingestStep
      simp
    rw [this]
    exact ih fun y hy => h y (List.mem_cons_of_mem x hy)

/-- C9: if the workers that finish before the first failing worker all
return nil, then `ingestDocuments` stores that worker's error `e` in the
first-error slot and kills the siblings; errors of workers finishing later
never replace it; and the coordinator, reading the ingest pool's signal
first (or together with a clean producer signal), returns exactly `e`. -/
theorem c9_first_error_wins (pre post : List (Option String)) (e : String)
    (hpre : ∀ x ∈ pre, x = none) :
    (ingestDocuments (pre ++ some e :: post)).retErr = some e ∧
    (ingestDocuments (pre ++ some e :: post)).killed = true ∧
    (∀ prodErr : Option String,
      channelQuorumError [(ingestDocuments (pre ++ some e :: post)).retErr, prodErr] =
        some e) ∧
    channelQuorumError [none, (ingestDocuments (pre ++ some e :: post)).retErr] =
      some e := by
  have hstep : ingestStep ⟨none, false⟩ (some e) = ⟨some e, true⟩ := by
    unfold ingestStep
    simp
  have hfold : ingestDocuments (pre ++ some e :: post) = ⟨some e, true⟩ := by
    unfold ingestDocuments
    rw [List.foldl_append, ingestFold_none pre hpre, List.foldl_cons, hstep,
      ingestFold_retains ⟨some e, true⟩ post (by simp)]
  refine ⟨by rw [hfold], by rw [hfold], ?_, by rw [hfold]; rfl⟩
  intro prodErr
  rw [hfold]
  rfl

/-- Witness for C9: one clean worker, then a worker failing with "boom",
then a late "later" failure: the slot holds "boom", the tomb is killed, and
the coordinator surfaces "boom" over a later producer error. -/
theorem c9_first_error_wins_witness :
    (ingestDocuments ([none] ++ some "boom" :: [some "later"])).retErr = some "boom" ∧
    (ingestDocuments ([none] ++ some "boom" :: [some "later"])).killed = true ∧
    channelQuorumError
        [(ingestDocuments ([none] ++ some "boom" :: [some "later"])).retErr,
          some "producer"] = some "boom" := by
  obtain ⟨h1, h2, h3, _⟩ := c9_first_error_wins [none] [some "later"] "boom" (by simp)
  exact ⟨h1, h2, h3 (some "producer")⟩

/-- Input format constants from mongoimport.go. -/
def CSV : String := "csv"

def TSV : String := "tsv"

def JSON : String := "json"

/-- The fields of `options.ToolOptions` that `ValidateSettings` reads or
writes. -/
structure ToolOptions where
  db : String
  collection : String
  numDecodingWorkers : Int
  maxProcs : Int
  bulkBufferSize : Int
deriving DecidableEq

/-- The fields of `InputOptions` that `ValidateSettings` reads or writes. -/
structure InputOptions where
  type : String
  headerLine : Bool
  fields : Option String
  fieldFile : Option String
  file : String
deriving DecidableEq

/-- The fields of `IngestOptions` that `ValidateSettings` reads or writes. -/
structure IngestOptions where
  ignoreBlanks : Bool
  upsert : Bool
  upsertFields : String
  maintainInsertionOrder : Bool
  numInsertionWorkers : Int
  stopOnError : Bool
deriving DecidableEq

/-- The `MongoImport` state touched by `ValidateSettings`: the three option
groups plus the derived `upsertFields` slice (`imd.upsertFields` in Go). -/
structure MongoImportCfg where
  tool : ToolOptions
  input : InputOptions
  ingest : IngestOptions
  upsertFieldsList : List String
deriving DecidableEq

/-- Oracles for the external helpers `ValidateSettings` calls:
`util.ValidateDBName`, `validateFields`, `util.ValidateCollectionName`,
`filepath.Base` and `strings.ToLower` (all outside the verified core). -/
structure Validators where
  validDBName : String → Bool
  validFields : List String → Bool
  validCollectionName : String → Bool
  base : String → String
  toLower : String → String

/-- `strings.LastIndex(s, ".")` truncation used to derive a collection name
from a file name: drop everything from the last dot on (identity when there
is no dot). -/
def trimExtension (s : String) : String :=
  let parts := s.splitOn "."
  if parts.length ≤ 1 then s else String.intercalate "." parts.dropLast

/-- The input file after falling back to the positional argument
(lines 193–198). -/
def fileOf (imp : MongoImportCfg) (args : List String) : String :=
  if imp.input.file = "" ∧ args ≠ [] then args.headD "" else imp.input.file

/-- The target collection after deriving a default from the file's base name
(lines 201–210). -/
def collectionOf (v : Validators) (imp : MongoImportCfg) (args : List String) :
    String :=
  if imp.tool.collection = "" then trimExtension (v.base (fileOf imp args))
  else imp.tool.collection

/-- The error gates of lines 144–215, in source order: upsert-field
validation, positional-argument checks, collection-name validation. -/
def ingestGateError (v : Validators) (imp : MongoImportCfg) (args : List String) :
    Option String :=
  if imp.ingest.upsertFields ≠ "" ∧
      ¬ v.validFields (imp.ingest.upsertFields.splitOn ",") then
    some "invalid --upsertFields argument"
  else if 1 < args.length then some "only one positional argument is allowed"
  else if imp.input.file ≠ "" ∧ args.length ≠ 0 then
    some "incompatible options: --file and positional argument(s)"
  else if ¬ v.validCollectionName (collectionOf v imp args) then
    some "invalid collection name"
  else none

/-- Lines 144–215 of `ValidateSettings`: the upsert-field derivation, the
forced ordering and worker-count rules, the decoding-worker and batch-size
defaults, and the file/collection resolution.  The value assignments are
pure, so they are gathered ahead of the error gates (`ingestGateError`)
they are interleaved with in Go; the gates keep their source order.  `db`
and `ty` are the already-validated database name and input type. -/
def validateIngestAndTarget (v : Validators) (imp : MongoImportCfg)
    (args : List String) (db ty : String) : Except String MongoImportCfg :=
  let upsert :=
    if imp.ingest.upsertFields ≠ "" then true else imp.ingest.upsert
  let ufl :=
    if imp.ingest.upsertFields ≠ "" then imp.ingest.upsertFields.splitOn ","
    else if imp.ingest.upsert then ["_id"]
    else imp.upsertFieldsList
  let mio := if upsert then true else imp.ingest.maintainInsertionOrder
  let ndw :=
    if imp.tool.numDecodingWorkers ≤ 0 then imp.tool.maxProcs
    else imp.tool.numDecodingWorkers
  let niw0 :=
    if imp.ingest.numInsertionWorkers ≤ 0 then 1 else imp.ingest.numInsertionWorkers
  let niw := if mio then 1 else niw0
  let bbs := if imp.tool.bulkBufferSize ≤ 0 then 10000 else imp.tool.bulkBufferSize
  match ingestGateError v imp args with
  | some e => .error e
  | none =>
    .ok
      { tool :=
          { db := db, collection := collectionOf v imp args,
            numDecodingWorkers := ndw, maxProcs := imp.tool.maxProcs,
            bulkBufferSize := bbs },
        input := { imp.input with type := ty, file := fileOf imp args },
        ingest :=
          { imp.ingest with
              upsert := upsert, maintainInsertionOrder := mio,
              numInsertionWorkers := niw },
        upsertFieldsList := ufl }

/-- The database name after the `"test"` default (line 84). -/
def dbOf (imp : MongoImportCfg) : String :=
  if imp.tool.db = "" then "test" else imp.tool.db

/-- The input type after lowercasing and the JSON default (lines 92–95). -/
def tyOf (v : Validators) (imp : MongoImportCfg) : String :=
  if v.toLower imp.input.type = "" then JSON else v.toLower imp.input.type

/-- Lines 84–142 of `ValidateSettings`: the db-name check, the input-type
check, and the per-format header/field compatibility checks, in source
order, as the first error they produce (none if all pass). -/
def formatGateError (v : Validators) (imp : MongoImportCfg) : Option String :=
  if ¬ v.validDBName (dbOf imp) then some "invalid database name"
  else if v.toLower imp.input.type ≠ "" ∧
      ¬(v.toLower imp.input.type = TSV ∨ v.toLower imp.input.type = JSON ∨
        v.toLower imp.input.type = CSV) then
    some "unknown type"
  else if tyOf v imp = CSV ∨ tyOf v imp = TSV then
    if ¬ imp.input.headerLine then
      if imp.input.fields = none ∧ imp.input.fieldFile = none then
        some "must specify --fields, --fieldFile or --headerline to import this file type"
      else if imp.input.fieldFile = some "" then
        some "--fieldFile can not be empty string"
      else if imp.input.fields ≠ none ∧ imp.input.fieldFile ≠ none then
        some "incompatible options: --fields and --fieldFile"
      else none
    else
      if imp.input.fields ≠ none then
        some "incompatible options: --fields and --headerline"
      else if imp.input.fieldFile ≠ none then
        some "incompatible options: --fieldFile and --headerline"
      else none
  else
    if imp.input.headerLine then
      some "can not use --headerline when input type is JSON"
    else if imp.input.fields ≠ none then
      some "can not use --fields when input type is JSON"
    else if imp.input.fieldFile ≠ none then
      some "can not use --fieldFile when input type is JSON"
    else if imp.ingest.ignoreBlanks then
      some "can not use --ignoreBlanks when input type is JSON"
    else none

/-- `MongoImport.ValidateSettings`: run the format gate, then the
ingest/target section. -/
def validateSettings (v : Validators) (imp : MongoImportCfg) (args : List String) :
    Except String MongoImportCfg :=
  match formatGateError v imp with
  | some e => .error e
  | none => validateIngestAndTarget v imp args (dbOf imp) (tyOf v imp)

/-- Every success of `validateSettings` comes out of the ingest/target
section: the earlier sections only gate. -/
theorem validateSettings_ok (v : Validators) (imp : MongoImportCfg)
    (args : List String) (out : MongoImportCfg)
    (h : validateSettings v imp args = .ok out) :
    validateIngestAndTarget v imp args (dbOf imp) (tyOf v imp) = .ok out := by
  unfold validateSettings at h
  cases heq : formatGateError v imp with
  | some e => rw [heq] at h; cases h
  | none => rw [heq] at h; exact h

/-- C6: whenever `ValidateSettings` succeeds, a configuration with upsert
enabled comes out with `MaintainInsertionOrder` forced on, and any
configuration that asked for (or was forced into) `MaintainInsertionOrder`
comes out with exactly 1 insertion worker — even if more were requested. -/
theorem c6_ordered_single_worker (v : Validators) (imp : MongoImportCfg)
    (args : List String) (out : MongoImportCfg)
    (h : validateSettings v imp args = .ok out) :
    (imp.ingest.upsert = true → out.ingest.maintainInsertionOrder = true) ∧
    (imp.ingest.maintainInsertionOrder = true → out.ingest.numInsertionWorkers = 1) ∧
    (out.ingest.maintainInsertionOrder = true → out.ingest.numInsertionWorkers = 1) := by
  have h2 := validateSettings_ok v imp args out h
  unfold validateIngestAndTarget at h2
  cases heq : ingestGateError v imp args with
  | some e => rw [heq] at h2; cases h2
  | none =>
    rw [heq] at h2
    injection h2 with h2
    subst h2
    refine ⟨?_, ?_, ?_⟩
    · intro hu
      simp [hu]
    · intro hm
      simp [hm]
    · intro hm
      simp only at hm ⊢
      rw [hm]
      simp

/-- Validator oracles that accept everything; `filepath.Base` is identity. -/
def allValid : Validators :=
  ⟨fun _ => true, fun _ => true, fun _ => true, fun s => s, fun s => s⟩

/-- A configuration requesting ordered insertion with 4 insertion workers. -/
def cfgOrdered : MongoImportCfg :=
  { tool :=
      { db := "testdb", collection := "coll", numDecodingWorkers := 2,
        maxProcs := 4, bulkBufferSize := 100 },
    input :=
      { type := "json", headerLine := false, fields := none, fieldFile := none,
        file := "data.json" },
    ingest :=
      { ignoreBlanks := false, upsert := false, upsertFields := "",
        maintainInsertionOrder := true, numInsertionWorkers := 4,
        stopOnError := false },
    upsertFieldsList := [] }

/-- The settings produced by validating `cfgOrdered`. -/
def validatedOrdered : MongoImportCfg :=
  match validateSettings allValid cfgOrdered [] with
  | .ok o => o
  | .error _ => cfgOrdered

/-- Witness for C6: `cfgOrdered` asks for `MaintainInsertionOrder` with 4
workers; validation leaves exactly 1 insertion worker. -/
theorem c6_ordered_single_worker_witness :
    cfgOrdered.ingest.maintainInsertionOrder = true ∧
    validatedOrdered.ingest.numInsertionWorkers = 1 :=
  ⟨rfl, (c6_ordered_single_worker allValid cfgOrdered [] validatedOrdered (by rfl)).2.1 rfl⟩

/-- The write issued by `upserter.Insert`: either a plain insert of the
document, or an upsert of the document under a selector. -/
inductive WriteOp (ν : Type) where
  | plainInsert (doc : List (String × ν))
  | upsertOp (selector doc : List (String × ν))
deriving DecidableEq

/-- Modelled from the spec: `constructUpsertDocument` (mongoimport's selector
builder, not under src/) maps each configured key field to the record's
value for that field, preserving the key fields' order; an empty key set
yields no selector. -/
def constructUpsertDocument (keys : List String) (doc : List (String × ν)) :
    Option (List (String × ν)) :=
  if keys = [] then none
  else some (keys.filterMap fun k => (doc.find? fun p => p.1 == k).map fun p => (k, p.2))

/-- `upserter.Insert` from mongoimport.go: build the selector from the
configured upsert fields; with no selector perform a plain insert,
otherwise an upsert with that selector. -/
def upserterInsert (upsertFields : List String) (doc : List (String × ν)) :
    WriteOp ν :=
  match constructUpsertDocument upsertFields doc with
  | none => .plainInsert doc
  | some selector => .upsertOp selector doc

/-- C7: the selector for key fields `[a]` on `{a: 5, b: 7}` is `{a: 5}`; key
order is preserved (`[b, a]` yields `{b: _, a: _}`); an empty key set means
no selector and a plain insert; with a selector an upsert is performed; and
upsert mode without explicit fields defaults the key set to `["_id"]`. -/
theorem c7_upsert_selector :
    constructUpsertDocument ["a"] [("a", (5 : Int)), ("b", 7)] = some [("a", 5)] ∧
    constructUpsertDocument ["b", "a"] [("a", (1 : Int)), ("b", 2)] =
      some [("b", 2), ("a", 1)] ∧
    (∀ doc : List (String × Int), upserterInsert [] doc = .plainInsert doc) ∧
    upserterInsert ["a"] [("a", (5 : Int)), ("b", 7)] =
      .upsertOp [("a", 5)] [("a", 5), ("b", 7)] ∧
    (∀ (v : Validators) (imp : MongoImportCfg) (args : List String)
        (out : MongoImportCfg), validateSettings v imp args = .ok out →
      imp.ingest.upsertFields = "" → imp.ingest.upsert = true →
      out.upsertFieldsList = ["_id"]) := by
  refine ⟨by decide, by decide, fun doc => rfl, by decide, ?_⟩
  intro v imp args out h he hu
  have h2 := validateSettings_ok v imp args out h
  unfold validateIngestAndTarget at h2
  cases heq : ingestGateError v imp args with
  | some e => rw [heq] at h2; cases h2
  | none =>
    rw [heq] at h2
    injection h2 with h2
    subst h2
    simp [he, hu]

/-- A configuration with upsert mode on and no explicit upsert fields. -/
def cfgUpsert : MongoImportCfg :=
  { tool :=
      { db := "testdb", collection := "coll", numDecodingWorkers := 2,
        maxProcs := 4, bulkBufferSize := 100 },
    input :=
      { type := "json", headerLine := false, fields := none, fieldFile := none,
        file := "data.json" },
    ingest :=
      { ignoreBlanks := false, upsert := true, upsertFields := "",
        maintainInsertionOrder := false, numInsertionWorkers := 4,
        stopOnError := false },
    upsertFieldsList := [] }

/-- The settings produced by validating `cfgUpsert`. -/
def validatedUpsert : MongoImportCfg :=
  match validateSettings allValid cfgUpsert [] with
  | .ok o => o
  | .error _ => cfgUpsert

/-- Witness for C7: the concrete selector example, and `cfgUpsert` (upsert
on, no explicit fields) validating to the default key set `["_id"]`. -/
theorem c7_upsert_selector_witness :
    upserterInsert ["a"] [("a", (5 : Int)), ("b", 7)] =
      .upsertOp [("a", 5)] [("a", 5), ("b", 7)] ∧
    validatedUpsert.upsertFieldsList = ["_id"] :=
  ⟨c7_upsert_selector.2.2.2.1,
    c7_upsert_selector.2.2.2.2 allValid cfgUpsert [] validatedUpsert (by rfl) rfl rfl⟩

theorem filterIngestError_continue (x : Option String) :
    filterIngestError false (fun _ => false) x = none := by
  cases x <;> simp [filterIngestError]

/-- With stop-on-error off and no connection-level errors, a worker that
reads all of `docs` and then sees the channel close returns nil, counts
every record, and performs exactly the `Insert` writes followed by the
final drain. -/
theorem runInsertionWorker_continue (env : DBEnv α) (docs : List α)
    (bb : BufferedBulkInserter α) :
    runInsertionWorker env false (fun _ => false)
        (docs.map WorkerEvent.record ++ [WorkerEvent.closed]) bb =
      ⟨none, docs.length,
        (insertSeq env bb docs).2 ++ (Flush env (insertSeq env bb docs).1).writes,
        (Flush env (insertSeq env bb docs).1).bb⟩ := by
  induction docs generalizing bb with
  | nil =>
    simp [runInsertionWorker, insertSeq, filterIngestError_continue]
  | cons d ds ih =>
    simp only [List.map_cons, List.cons_append, runInsertionWorker,
      filterIngestError_continue, insertSeq, List.length_cons, List.append_eq]
    rw [ih]
    simp [List.append_assoc]

/-- `insertSeq` over a concatenation: process the first part, then the
second from the resulting state, concatenating the writes. -/
theorem insertSeq_append (env : DBEnv α) (xs ys : List α) :
    ∀ bb : BufferedBulkInserter α,
      insertSeq env bb (xs ++ ys) =
        ((insertSeq env (insertSeq env bb xs).1 ys).1,
          (insertSeq env bb xs).2 ++ (insertSeq env (insertSeq env bb xs).1 ys).2) := by
  induction xs with
  | nil =>
    intro bb
    simp [insertSeq]
  | cons x xs ih =>
    intro bb
    simp only [List.cons_append, insertSeq, List.append_eq]
    rw [ih]
    simp [List.append_assoc]

/-- While neither ceiling binds, `Insert` only accumulates: no flush is
triggered and the records pile into the current batch. -/
theorem insertSeq_fill (env : DBEnv α) (sz : Nat)
    (hsz : ∀ d : α, env.marshalLen d = .ok sz) :
    ∀ (ds : List α) (bb : BufferedBulkInserter α),
      bb.docCount + ds.length ≤ bb.docLimit →
      bb.docCount + ds.length ≤ BulkDocLimit →
      bb.byteCount + sz * ds.length ≤ MaxBulkSize →
      insertSeq env bb ds =
        ({ bb with
            bulkDocs := bb.bulkDocs ++ ds,
            docCount := bb.docCount + ds.length,
            byteCount := bb.byteCount + sz * ds.length }, ([] : List (List α))) := by
  intro ds
  induction ds with
  | nil =>
    intro bb h1 h2 h3
    obtain ⟨bd, c, dl, byc, dc⟩ := bb
    simp [insertSeq]
  | cons d ds ih =>
    intro bb h1 h2 h3
    obtain ⟨bd, c, dl, byc, dc⟩ := bb
    simp only [List.length_cons] at h1 h2 h3
    rw [Nat.mul_add, Nat.mul_one] at h3
    have hcond : ¬(dl ≤ dc ∨ MaxBulkSize < byc + sz ∨ BulkDocLimit ≤ dc) := by
      push_neg
      exact ⟨by omega, by omega, by omega⟩
    have h1a : dc + 1 + ds.length ≤ dl := by omega
    have h2a : dc + 1 + ds.length ≤ BulkDocLimit := by omega
    have h3a : byc + sz + sz * ds.length ≤ MaxBulkSize := by omega
    simp only [insertSeq, Insert, hsz d]
    rw [if_neg hcond]
    dsimp only
    rw [ih ⟨bd ++ [d], c, dl, byc + sz, dc + 1⟩ h1a h2a h3a]
    dsimp only
    rw [Prod.mk.injEq, BufferedBulkInserter.mk.injEq]
    refine ⟨⟨?_, rfl, rfl, ?_, ?_⟩, by simp⟩
    · simp
    · dsimp only [List.length_cons]
      ring
    · dsimp only [List.length_cons]
      omega

/-- The batches a saturated builder (counters at or above the doc limit, so
every `Insert` first flushes) hands to the store: the current batch, then a
singleton per record but the last. -/
def satWrites (cur : List α) : List α → List (List α)
  | [] => []
  | d :: ds => cur :: satWrites [d] ds

/-- The batch left buffered by a saturated builder: the last record, if any. -/
def satBuf (cur : List α) : List α → List α
  | [] => cur
  | d :: ds => satBuf [d] ds

/-- Once `docCount` has reached the doc limit it never resets (`resetBulk`
is dead code), so every further `Insert` flushes: the previous batch goes
out on the next accepting call and each subsequent batch is a singleton. -/
theorem insertSeq_saturated (env : DBEnv α) (sz : Nat)
    (hsz : ∀ d : α, env.marshalLen d = .ok sz) :
    ∀ (ds : List α) (bb : BufferedBulkInserter α),
      bb.docLimit ≤ bb.docCount → 1 ≤ bb.docCount →
      insertSeq env bb ds =
        ({ bb with
            bulkDocs := satBuf bb.bulkDocs ds,
            docCount := bb.docCount + ds.length,
            byteCount := bb.byteCount + sz * ds.length }, satWrites bb.bulkDocs ds) := by
  intro ds
  induction ds with
  | nil =>
    intro bb h1 h2
    obtain ⟨bd, c, dl, byc, dc⟩ := bb
    simp [insertSeq, satBuf, satWrites]
  | cons d ds ih =>
    intro bb h1 h2
    obtain ⟨bd, c, dl, byc, dc⟩ := bb
    simp only at h1 h2
    have hcond : dl ≤ dc ∨ MaxBulkSize < byc + sz ∨ BulkDocLimit ≤ dc := Or.inl h1
    have hnz : ¬ dc = 0 := by omega
    have h1a : dl ≤ dc + 1 := by omega
    have h2a : (1:Nat) ≤ dc + 1 := by omega
    simp only [insertSeq, Insert, hsz d]
    rw [if_pos hcond]
    simp only [Flush]
    rw [if_neg hnz]
    dsimp only
    rw [ih ⟨[] ++ [d], c, dl, byc + sz, dc + 1⟩ h1a h2a]
    dsimp only
    simp only [List.nil_append, satWrites, satBuf]
    rw [Prod.mk.injEq, BufferedBulkInserter.mk.injEq]
    refine ⟨⟨rfl, rfl, rfl, ?_, ?_⟩, by simp⟩
    · dsimp only [List.length_cons]
      ring
    · dsimp only [List.length_cons]
      omega

theorem satWrites_map_length :
    ∀ (ds cur : List α),
      (satWrites cur ds).map List.length =
        if ds.length = 0 then [] else cur.length :: List.replicate (ds.length - 1) 1 := by
  intro ds
  induction ds with
  | nil => intro cur; simp [satWrites]
  | cons d ds ih =>
    intro cur
    simp only [satWrites, List.map_cons, ih [d]]
    cases ds with
    | nil => simp
    | cons e es => simp [List.replicate_succ]

theorem satBuf_length :
    ∀ (ds cur : List α), (satBuf cur ds).length = if ds.length = 0 then cur.length else 1 := by
  intro ds
  induction ds with
  | nil => intro cur; simp [satBuf]
  | cons d ds ih =>
    intro cur
    simp only [satBuf, ih [d]]
    cases ds with
    | nil => simp
    | cons e es => simp

/-- The C1 scenario oracle: every record marshals to 20 bytes (so the byte
ceiling never binds), and the store rejects any batch containing record
1500 — the record whose key duplicates one already present — with a
duplicate-key error, accepting every other batch. -/
def envC1 : DBEnv Nat :=
  ⟨fun _ => .ok 20,
    fun w => if w.contains 1500 then some "E11000 duplicate key error" else none⟩

/-- The 1500 records fed after the first thousand. -/
def tailDocs : List Nat := (List.range 1500).map (1000 + ·)

/-- The C1 run: one worker, doc limit 1000, stop-on-error off, 2500 records
then channel closure. -/
def c1Run : WorkerResult Nat :=
  runInsertionWorker envC1 false (fun _ => false)
    ((List.range 2500).map WorkerEvent.record ++ [WorkerEvent.closed])
    (NewBufferedBulkInserter Nat 1000 true)

/-- C1 (what the code actually does on the claimed scenario): the terminal
error is nil as claimed, but the worker counts all 2500 records — the
duplicate included — and flushes 1501 batches, of sizes 1000 then 1500
singletons: after the first flush `docCount` is never reset, so every
further `Insert` flushes. -/
theorem c1_scenario_code_eval :
    c1Run.err = none ∧ c1Run.okCount = 2500 ∧
    c1Run.writes.length = 1501 ∧
    c1Run.writes.map List.length = 1000 :: List.replicate 1500 1 := by
  have hsz : ∀ d : Nat, envC1.marshalLen d = .ok 20 := fun d => rfl
  have hsplit : List.range 2500 = List.range 1000 ++ tailDocs := by
    have h := List.range_add 1000 1500
    norm_num at h
    exact h
  have hlen2 : tailDocs.length = 1500 := by simp [tailDocs]
  have hfill : insertSeq envC1 (NewBufferedBulkInserter Nat 1000 true) (List.range 1000)
      = (⟨List.range 1000, true, 1000, 20000, 1000⟩, []) := by
    rw [insertSeq_fill envC1 20 hsz (List.range 1000) (NewBufferedBulkInserter Nat 1000 true)
      (by simp [NewBufferedBulkInserter]) (by simp [NewBufferedBulkInserter, BulkDocLimit])
      (by simp [NewBufferedBulkInserter, MaxBulkSize])]
    simp [NewBufferedBulkInserter]
  have hsat : insertSeq envC1 ⟨List.range 1000, true, 1000, 20000, 1000⟩ tailDocs
      = (⟨satBuf (List.range 1000) tailDocs, true, 1000, 20000 + 20 * tailDocs.length,
          1000 + tailDocs.length⟩, satWrites (List.range 1000) tailDocs) := by
    rw [insertSeq_saturated envC1 20 hsz tailDocs ⟨List.range 1000, true, 1000, 20000, 1000⟩
      (by norm_num) (by norm_num)]
  have hseq : insertSeq envC1 (NewBufferedBulkInserter Nat 1000 true) (List.range 2500)
      = (⟨satBuf (List.range 1000) tailDocs, true, 1000, 20000 + 20 * tailDocs.length,
          1000 + tailDocs.length⟩, satWrites (List.range 1000) tailDocs) := by
    rw [hsplit, insertSeq_append, hfill]
    dsimp only
    rw [hsat]
    simp
  have hflush : Flush envC1 ⟨satBuf (List.range 1000) tailDocs, true, 1000,
      20000 + 20 * tailDocs.length, 1000 + tailDocs.length⟩
      = ⟨envC1.run (satBuf (List.range 1000) tailDocs),
          ⟨[], true, 1000, 20000 + 20 * tailDocs.length, 1000 + tailDocs.length⟩,
          [satBuf (List.range 1000) tailDocs]⟩ := by
    rw [Flush]
    rw [if_neg (by rw [hlen2]; norm_num)]
  have hrun : c1Run = ⟨none, 2500,
      satWrites (List.range 1000) tailDocs ++ [satBuf (List.range 1000) tailDocs],
      ⟨[], true, 1000, 20000 + 20 * tailDocs.length, 1000 + tailDocs.length⟩⟩ := by
    unfold c1Run
    rw [runInsertionWorker_continue, hseq]
    dsimp only
    rw [hflush]
    simp
  rw [hrun]
  have hmap : (satWrites (List.range 1000) tailDocs).map List.length =
      1000 :: List.replicate 1499 1 := by
    rw [satWrites_map_length tailDocs (List.range 1000)]
    rw [hlen2]
    norm_num
  have hbuf : (satBuf (List.range 1000) tailDocs).length = 1 := by
    rw [satBuf_length tailDocs (List.range 1000), hlen2]
    norm_num
  have hW : (satWrites (List.range 1000) tailDocs).length = 1500 := by
    have h := congrArg List.length hmap
    rw [List.length_map, List.length_cons, List.length_replicate] at h
    omega
  refine ⟨rfl, rfl, ?_, ?_⟩
  · rw [List.length_append, hW, List.length_singleton]
  · rw [List.map_append, hmap]
    simp only [List.map_cons, List.map_nil, hbuf]
    rw [List.cons_append, ← List.replicate_succ' 1499 1]

end MongoTools
